import Mathlib

/-!
Verification of the Autonomous-Deal-Agent analysis pipeline.

This file gives a shallow embedding, in Lean 4, of the algorithmic core of the
repository: the composite signal-scoring engine (src/analysis/signal_model.py),
the extraction and evidence-validation step (src/pipeline/deal_analyzer.py) and
the retrieval deduplication engine (src/core/orchestrator.py), together with
theorems settling the stated behavioural properties of those components.

Modelling conventions, applied throughout:
- Python floats are modelled as exact rationals; the square root used by
  pandas/numpy and the float formatting used in f-strings are abstracted as
  function parameters, since no property proved here depends on their values.
- Python strings are modelled as Lean strings, with the relevant builtins
  (lower, strip, split, substring containment) reimplemented over their
  character lists so that all definitions are executable.
- Fallible code paths (Python exceptions) are modelled with Option: none marks
  exactly the inputs on which the Python code raises.
- The json.loads routine of the Python standard library is an external
  collaborator of the parsing code and is abstracted as a function
  String to Option Json; the Json type below models the values it can return.
-/

namespace DealAgent

/-! ## String helpers modelling Python builtins -/

/-- Boolean infix test on character lists; models the Python substring operator. -/
def isInfixL (needle : List Char) : List Char → Bool
  | [] => needle.isEmpty
  | h :: t => needle.isPrefixOf (h :: t) || isInfixL needle t

/-- Models the Python expression needle in hay on strings. -/
def containsSub (needle hay : String) : Bool := isInfixL needle.toList hay.toList

/-- Models the Python str.lower method (ASCII content in this code base). -/
def lowerS (s : String) : String := String.mk (s.toList.map Char.toLower)

/-- Strips characters satisfying p from both ends; models str.strip variants. -/
def stripOnBoth (p : Char → Bool) (s : String) : String :=
  String.mk (((s.toList.dropWhile p).reverse.dropWhile p).reverse)

/-- Models the Python str.lstrip method with no arguments. -/
def lstripWs (s : String) : String := String.mk (s.toList.dropWhile Char.isWhitespace)

/-- Helper for splitWs: accumulates the current word (reversed) while scanning. -/
def splitWsAux : List Char → List Char → List String
  | [], acc => if acc.isEmpty then [] else [String.mk acc.reverse]
  | c :: cs, acc =>
    if c.isWhitespace then
      if acc.isEmpty then splitWsAux cs [] else String.mk acc.reverse :: splitWsAux cs []
    else splitWsAux cs (c :: acc)

/-- Models the Python str.split method with no arguments: split on whitespace
runs, discarding empty fields. -/
def splitWs (s : String) : List String := splitWsAux s.toList []

/-- Models the Python slice s[:n] on strings (character count). -/
def takeS (n : Nat) (s : String) : String := String.mk (s.toList.take n)

/-- Models the Python slice s[n:] on strings (character count). -/
def dropS (n : Nat) (s : String) : String := String.mk (s.toList.drop n)

/-- Boolean prefix test on strings; models the Python str.startswith method. -/
def startsWithS (pre s : String) : Bool := pre.toList.isPrefixOf s.toList

/-! ## Signal scoring engine (src/analysis/signal_model.py) -/

/-- The three statistical components computed by
SignalModel.compute_statistical_features. -/
structure Stats where
  z_score : ℚ
  volatility : ℚ
  volume_shock : ℚ
deriving DecidableEq, Repr

/-- Result record of SignalModel.score_ticker; mirrors the SignalScore
dataclass of the source. -/
structure SignalScore where
  ticker : String
  total_score : ℚ
  components : Stats
  explanation : List String
deriving DecidableEq, Repr

/-- The market_data argument of score_ticker: a dict with keys close and
volume holding lists of floats; a missing key defaults to the empty list. -/
structure MarketData where
  close : List ℚ
  volume : List ℚ
deriving DecidableEq, Repr

/-- Arithmetic mean of a list of rationals (pandas rolling mean at full window). -/
def listMean (xs : List ℚ) : ℚ := xs.sum / xs.length

/-- Sample variance with one delta degree of freedom, as pandas Series.std
computes before its square root (which is abstracted as the sq parameter). -/
def sampleVar (xs : List ℚ) : ℚ :=
  (xs.map (fun x => (x - listMean xs) ^ 2)).sum / ((xs.length : ℚ) - 1)

/-- Last n elements of a list: the final rolling window of pandas. -/
def lastWindow (n : Nat) (xs : List ℚ) : List ℚ := xs.drop (xs.length - n)

/-- Models pandas Series.pct_change().dropna(): consecutive relative changes,
first (undefined) entry dropped. -/
def pctChange (xs : List ℚ) : List ℚ :=
  List.zipWith (fun prev cur => (cur - prev) / prev) xs xs.tail

/-- Embedding of SignalModel.compute_statistical_features. The sq parameter
abstracts the square root of pandas Series.std and numpy.sqrt. Returns none
exactly where the Python raises: last-element access on an empty volume series
(reachable only when the price series has at least 30 observations). A rolling
mean over fewer than 20 volumes is NaN in pandas; NaN compares false against 0,
so the volume shock stays 0 on that path, which the none branch of avgVol
models. -/
def compute_statistical_features (sq : ℚ → ℚ) (prices volumes : List ℚ) : Option Stats :=
  if prices.length < 30 then some ⟨0, 0, 0⟩
  else
    let ma_20 := listMean (lastWindow 20 prices)
    let std_20 := sq (sampleVar (lastWindow 20 prices))
    let current_price := prices.getLastD 0
    let z_score := if std_20 > 0 then (current_price - ma_20) / std_20 else 0
    let returns := pctChange prices
    let vol_20 := sq (sampleVar (lastWindow 20 returns)) * sq 252
    match volumes.getLast? with
    | none => none
    | some current_vol =>
      let avgVol : Option ℚ :=
        if volumes.length < 20 then none else some (listMean (lastWindow 20 volumes))
      let vol_shock :=
        match avgVol with
        | some avg_vol => if avg_vol > 0 then current_vol / avg_vol else 0
        | none => 0
      some ⟨z_score, vol_20, vol_shock⟩

/-- Keyword list used by the news/text contribution of score_ticker. -/
def deal_keywords : List String :=
  ["merger", "acquisition", "buyout", "talks", "rumor", "proposal"]

/-- True when some news item contains a transaction keyword; models the
news loop of score_ticker, whose break makes it equivalent to an any. -/
def newsHasDealKeyword (news_items : List String) : Bool :=
  news_items.any (fun item => deal_keywords.any (fun k => containsSub k (lowerS item)))

/-- Embedding of SignalModel.score_ticker. Each Python branch both adds to the
score and appends an explanation; this is modelled as a pair of conditionals
with the same condition. fmt1 and fmtPct abstract the Python float format
specifiers .1f and .1%. Returns none exactly where
compute_statistical_features raises. -/
def score_ticker (sq : ℚ → ℚ) (fmt1 fmtPct : ℚ → String) (ticker : String)
    (market_data : MarketData) (news_items : List String) : Option SignalScore :=
  match compute_statistical_features sq market_data.close market_data.volume with
  | none => none
  | some stats =>
    let volScore : ℚ :=
      if stats.volume_shock > 3 then 0.3 else if stats.volume_shock > 1.5 then 0.1 else 0
    let volExpl : List String :=
      if stats.volume_shock > 3 then
        ["Massive volume spike (" ++ fmt1 stats.volume_shock ++ "x avg)"]
      else if stats.volume_shock > 1.5 then
        ["Elevated volume (" ++ fmt1 stats.volume_shock ++ "x avg)"]
      else []
    let priceScore : ℚ :=
      if |stats.z_score| > 3 then 0.3 else if |stats.z_score| > 2 then 0.15 else 0
    let priceExpl : List String :=
      if |stats.z_score| > 3 then
        ["Extreme price move (Z=" ++ fmt1 stats.z_score ++ ")"]
      else if |stats.z_score| > 2 then
        ["Significant price move (Z=" ++ fmt1 stats.z_score ++ ")"]
      else []
    let volatilityScore : ℚ := if stats.volatility > 0.5 then 0.1 else 0
    let volatilityExpl : List String :=
      if stats.volatility > 0.5 then
        ["High volatility (" ++ fmtPct stats.volatility ++ ")"]
      else []
    let newsScore : ℚ := if newsHasDealKeyword news_items then 0.3 else 0
    let newsExpl : List String :=
      if newsHasDealKeyword news_items then ["News contains deal keywords"] else []
    let score := volScore + priceScore + volatilityScore + newsScore
    some ⟨ticker, min 1 score, stats, volExpl ++ priceExpl ++ volatilityExpl ++ newsExpl⟩

/-! ## Evidence records (serialized retrieved documents) -/

/-- Metadata fields of an evidence record that the analysis pipeline reads
(source tag and link); a missing dict key is none. -/
structure Meta where
  source : Option String
  link : Option String
deriving DecidableEq, Repr

/-- A serialized retrieved document, as threaded through the pipeline state:
a dict with page_content and metadata keys. page_content is an Option since
dict.get may yield None. -/
structure Doc where
  page_content : Option String
  metadata : Meta
deriving DecidableEq, Repr

/-! ## Evidence validator (src/pipeline/deal_analyzer.py) -/

/-- The fields of a model-proposed deal dict that the validator inspects.
Fields the validator never reads (type, tickers, value_usd, status,
source_link) stay inside the original Json value carried alongside. A JSON
null evidence behaves exactly like the empty string: both are rejected by the
leading non-trivial-evidence test, so the embedding conflates them. -/
structure Deal where
  acquirer : Option String
  target : Option String
  evidence : String
deriving DecidableEq, Repr

/-- Python truthiness for the acquirer and target fields: None and the empty
string are falsy. -/
def truthyStr : Option String → Bool
  | none => false
  | some s => !(s == "")

/-- Hallucination-marker list inside _evidence_exists_in_docs. -/
def generic_phrases : List String :=
  ["rumors of potential", "various industries", "collaborations and acquisitions"]

/-- Embedding of _evidence_exists_in_docs: evidence must be non-trivial,
free of generic hallucination phrases, and overlap some retrieved document. -/
def _evidence_exists_in_docs (evidence : String) (retrieved_docs : List Doc) : Bool :=
  if evidence == "" || evidence.toList.length < 10 then false
  else
    let evidence_lower := lowerS evidence
    if generic_phrases.any (fun phrase => containsSub phrase evidence_lower) then false
    else
      retrieved_docs.any (fun doc =>
        let content := lowerS (doc.page_content.getD "")
        content.toList.length > 10 &&
          (containsSub evidence_lower content ||
            (splitWs evidence_lower).any (fun word =>
              word.toList.length > 4 && containsSub word content)))

/-- Hallucination-marker list of rule 3 of _validate_deals (note the trailing
word in, absent from the list used inside _evidence_exists_in_docs). -/
def rule3_phrases : List String :=
  ["rumors of potential", "various industries", "collaborations and acquisitions in"]

/-- The per-candidate keep condition of _validate_deals: the three rules in
order, each continue of the Python loop being a conjunct. -/
def dealKeep (deal : Deal) (retrieved_docs : List Doc) : Bool :=
  (truthyStr deal.acquirer || truthyStr deal.target) &&
  _evidence_exists_in_docs deal.evidence retrieved_docs &&
  !(rule3_phrases.any (fun phrase => containsSub phrase (lowerS deal.evidence)))

/-- Embedding of _validate_deals: the Python append loop is a filter. -/
def _validate_deals (deals : List Deal) (retrieved_docs : List Doc) : List Deal :=
  deals.filter (fun deal => dealKeep deal retrieved_docs)

/-! ## Retrieval and deduplication engine (src/core/orchestrator.py) -/

/-- A raw document as returned by the vector-store search (langchain
Document): attribute access is defaulted, so both attributes are Options. -/
structure LCDoc where
  page_content : Option String
  metadata : Option Meta
deriving DecidableEq, Repr

/-- The empty metadata dict used as attribute default. -/
def emptyMeta : Meta := ⟨none, none⟩

/-- Deduplication key of a raw hit: the pair
(page_content attribute defaulted to the empty string, metadata link). -/
def lcKey (d : LCDoc) : String × Option String :=
  (d.page_content.getD "", (d.metadata.getD emptyMeta).link)

/-- Serialization of a kept raw hit into the pipeline state dict shape. -/
def serializeLC (d : LCDoc) : Doc :=
  ⟨some (d.page_content.getD ""), d.metadata.getD emptyMeta⟩

/-- Deduplication key of an already-serialized evidence record. -/
def docKey (d : Doc) : String × Option String :=
  (d.page_content.getD "", d.metadata.link)

/-- The seen-set loop of the FAISS branch of retrieve_step: skip a hit whose
key was already seen, otherwise serialize it and record its key. The Python
set is modelled as the list of keys inserted so far. -/
def dedupGo (seen : List (String × Option String)) : List LCDoc → List Doc
  | [] => []
  | d :: ds =>
    if lcKey d ∈ seen then dedupGo seen ds
    else serializeLC d :: dedupGo (lcKey d :: seen) ds

/-- Deduplicate-and-serialize over the accumulated hits, starting from an
empty seen set, exactly as the source loop does. -/
def dedupSerialize (retrieved : List LCDoc) : List Doc := dedupGo [] retrieved

/-- The same first-occurrence deduplication loop on already-serialized
records; dedupSerialize factors through it (lemma dedupGo_eq_docsGo below). -/
def dedupDocsGo (seen : List (String × Option String)) : List Doc → List Doc
  | [] => []
  | d :: ds =>
    if docKey d ∈ seen then dedupDocsGo seen ds
    else d :: dedupDocsGo (docKey d :: seen) ds

/-- The dedup/merge step of the retrieval engine on evidence records:
first-occurrence deduplication by key followed by truncation to the
configured retrieval width. -/
def dedupStep (top_k : Nat) (ds : List Doc) : List Doc :=
  (dedupDocsGo [] ds).take top_k

/-- The fixed boolean keyword expression DEAL_QUERY of the orchestrator. -/
def DEAL_QUERY : String :=
  "merger OR acquisition OR acquire OR acquiring OR acquired OR buyout OR " ++
  "takeover OR 'business combination' OR SPAC OR 'tender offer' OR 'definitive agreement' " ++
  "OR divestiture OR spin-off"

/-- Embedding of _build_queries: one query per ticker, or the keyword
expression alone when no tickers are configured. -/
def _build_queries (tickers : List String) : List String :=
  if tickers.isEmpty then [DEAL_QUERY] else tickers.map (fun t => t ++ " " ++ DEAL_QUERY)

/-- Embedding of the FAISS (embedding-mode) branch of retrieve_step: issue
every query against the abstract similarity search, accumulate the hits,
deduplicate by key with first occurrence winning, serialize, and truncate to
top_k. The Python cleaned[:top_k] if cleaned else [] equals take top_k. -/
def retrieve_step_faiss (search : String → Nat → List LCDoc) (tickers : List String)
    (top_k : Nat) : List Doc :=
  let queries := _build_queries tickers
  let retrieved := queries.flatMap (fun q => search q top_k)
  let cleaned := dedupSerialize retrieved
  cleaned.take top_k

/-! ## Extraction stage (analyze_with_llm of src/pipeline/deal_analyzer.py) -/

/-- JSON values, as returned by the abstracted json.loads collaborator. -/
inductive Json where
  | null
  | bool (b : Bool)
  | num (q : ℚ)
  | str (s : String)
  | arr (elems : List Json)
  | obj (fields : List (String × Json))

/-- Dict lookup on the field list of a JSON object (objects produced by
json.loads model Python dicts, so keys are unique). -/
def jGet (fields : List (String × Json)) (key : String) : Option Json :=
  (fields.find? (fun f => f.1 == key)).map (fun f => f.2)

/-- Dict assignment: overwrite the value at an existing key in place,
append the binding otherwise, as Python dict assignment does. -/
def jSet (fields : List (String × Json)) (key : String) (v : Json) :
    List (String × Json) :=
  if (fields.find? (fun f => f.1 == key)).isSome then
    fields.map (fun f => if f.1 == key then (f.1, v) else f)
  else fields ++ [(key, v)]

/-- Lookup on a JSON value that is expected to be an object. -/
def jGetJ (j : Json) (key : String) : Option Json :=
  match j with
  | Json.obj fields => jGet fields key
  | _ => none

/-- True exactly when the parsed value passes the acceptance test of the
tolerant parse: isinstance(data, dict) and deals in data. -/
def isObjWithDeals : Json → Bool
  | Json.obj fields => (jGet fields "deals").isSome
  | _ => false

/-- Reads an acquirer or target field of a deal dict. A missing key is the
dict.get default None; values outside the string-or-null DealCandidate schema
are a decode failure (the Python dynamic path for them is not modelled). -/
def decodeNullableStr : Option Json → Option (Option String)
  | none => some none
  | some Json.null => some none
  | some (Json.str s) => some (some s)
  | some _ => none

/-- Reads the evidence field of a deal dict; dict.get defaults a missing key
to the empty string, and a JSON null behaves like the empty string (both are
rejected by the leading test of _evidence_exists_in_docs). -/
def decodeEvidence : Option Json → Option String
  | none => some ""
  | some Json.null => some ""
  | some (Json.str s) => some s
  | some _ => none

/-- Decodes one element of the deals array into the fields the validator
reads, keeping the original JSON value (the Python code filters the original
dicts). A non-object element makes the attribute access of the validation
loop raise, which the enclosing try of the Python code turns into the
unparseable fallback; decode failure models that path. -/
def decodeDeal : Json → Option (Json × Deal)
  | Json.obj fields => do
    let a ← decodeNullableStr (jGet fields "acquirer")
    let t ← decodeNullableStr (jGet fields "target")
    let e ← decodeEvidence (jGet fields "evidence")
    pure (Json.obj fields, ⟨a, t, e⟩)
  | _ => none

/-- Decodes the value under the deals key. A non-array value makes len raise
inside the try of the Python code, hence decode failure. -/
def decodeDeals : Json → Option (List (Json × Deal))
  | Json.arr elems => elems.mapM decodeDeal
  | _ => none

/-- Embedding of the tolerant response stripping of analyze_with_llm:
text = raw.strip().strip(backtick), then a leading case-insensitive json
language tag of a code fence is dropped together with following whitespace. -/
def stripResponse (raw : String) : String :=
  let text := stripOnBoth Char.isWhitespace raw
  let text := stripOnBoth (fun c => c == '`') text
  if startsWithS "json" (lowerS text) then lstripWs (dropS 4 text) else text

/-- The DEAL_SCHEMA_HINT constant of the source. -/
def DEAL_SCHEMA_HINT : String :=
  "Return ONLY JSON:\n\x7b\n  \"deals\": [\n    \x7b\n      \"type\": " ++
  "\"acquisition|merger|divestiture|spin-off|spac|tender|strategic_transaction|other\",\n" ++
  "      \"acquirer\": \"string|null\",\n      \"target\": \"string|null\",\n" ++
  "      \"tickers\": [\"...\"],\n      \"value_usd\": \"string|null\",\n" ++
  "      \"status\": \"rumor|agreement|announced|closed|terminated|other\",\n" ++
  "      \"evidence\": \"short quote/headline from context\",\n" ++
  "      \"source_link\": \"url|null\"\n    \x7d\n  ],\n" ++
  "  \"trend_summary\": \"2-3 sentences\"\n\x7d"

/-- The STRICT_SYSTEM_PROMPT constant of the source. -/
def STRICT_SYSTEM_PROMPT : String :=
  "You are an M&A intelligence analyst. Your job is to extract ONLY concrete, " ++
  "evidence-based deal information.\n\nCRITICAL RULES:\n" ++
  "1. If NO deal-related information exists in the context → return " ++
  "\x7b\"deals\": [], \"trend_summary\": \"No M&A activity detected.\"\x7d\n" ++
  "2. NEVER invent or speculate about deals not mentioned in the context\n" ++
  "3. NEVER use phrases like \"rumors of\", \"potential\", \"various industries\" " ++
  "unless those EXACT words appear in a source\n" ++
  "4. Evidence MUST be a direct quote or close paraphrase from the context\n" ++
  "5. If acquirer/target are unknown → set to null, but there MUST be concrete " ++
  "deal evidence in context\n" ++
  "6. Status can only be \"rumor\" if the word \"rumor\", \"speculation\", or " ++
  "\"talks\" appears in the source\n" ++
  "7. NEVER generate multiple identical deals\n" ++
  "8. If uncertain or no evidence exists → omit the deal entirely\n\n" ++
  "ACCEPTABLE DEAL EVIDENCE:\n" ++
  "✓ \"Company X to acquire Company Y for $Z\"\n" ++
  "✓ \"X and Y announce merger\"\n" ++
  "✓ \"Sources say X in talks to buy Y\"\n\n" ++
  "UNACCEPTABLE (HALLUCINATION):\n" ++
  "✗ \"Rumors of potential collaborations\"\n" ++
  "✗ \"Various industries\"\n" ++
  "✗ Generic speculation not in sources\n" ++
  "✗ Deals with no specific companies mentioned\n"

/-- Title rendering of one context line:
(page_content or empty).strip().replace newline by space, first 220 chars. -/
def fmtTitle (s : String) : String :=
  takeS 220 (String.mk ((stripOnBoth Char.isWhitespace s).toList.map
    (fun c => if c == '\n' then ' ' else c)))

/-- One rendered context line of _format_ctx. -/
def fmtLine (d : Doc) : String :=
  "- [" ++ (d.metadata.source.getD "") ++ "] " ++ fmtTitle (d.page_content.getD "") ++
    " (link=" ++ (d.metadata.link.getD "") ++ ")"

/-- Models the Python newline join of a list of lines. -/
def joinNL : List String → String
  | [] => ""
  | [l] => l
  | l :: ls => l ++ "\n" ++ joinNL ls

/-- Embedding of _format_ctx: render at most the first 8 retrieved records,
or the fixed no-docs marker when nothing was retrieved. -/
def _format_ctx (retrieved : List Doc) : String :=
  let lines := (retrieved.take 8).map fmtLine
  if lines.isEmpty then "(no retrieved docs)" else joinNL lines

/-- The prompt assembled by analyze_with_llm. -/
def buildPrompt (query context : String) : String :=
  STRICT_SYSTEM_PROMPT ++ "\n\n" ++ DEAL_SCHEMA_HINT ++ "\n\n" ++
  "Query: " ++ query ++ "\nContext:\n" ++ context ++ "\n\n" ++
  "Analyze the context above and extract deals. If no deals exist, return empty deals array.\n\n" ++
  "JSON:"

/-- The fixed fallback dict for the disabled-collaborator path. -/
def disabledResult : Json :=
  Json.obj [("deals", Json.arr []),
            ("trend_summary", Json.str "LLM disabled; rule-based path.")]

/-- The fixed dict returned on the empty-retrieval short circuit. -/
def noDocsResult : Json :=
  Json.obj [("deals", Json.arr []),
    ("trend_summary", Json.str "No documents retrieved. Unable to detect M&A activity.")]

/-- The fixed fallback dict for unparseable model output. -/
def unparseableFallback : Json :=
  Json.obj [("deals", Json.arr []),
            ("trend_summary", Json.str "Model returned unparseable output")]

/-- Embedding of analyze_with_llm. loads abstracts json.loads (none models a
raised ValueError); llm is the optional generative-model collaborator, whose
generate method may return None (hence String to Option String). The Bool of
the result instruments whether generate was invoked, so that the
short-circuit properties can be stated; the Json is the returned dict. -/
def analyze_with_llm (loads : String → Option Json) (llm : Option (String → Option String))
    (query : String) (retrieved : List Doc) : Json × Bool :=
  match llm with
  | none => (disabledResult, false)
  | some generate =>
    let context := _format_ctx retrieved
    if context = "(no retrieved docs)" ∨ retrieved = [] then (noDocsResult, false)
    else
      let raw := generate (buildPrompt query context)
      let text := stripResponse (raw.getD "")
      match loads text with
      | none => (unparseableFallback, true)
      | some (Json.obj fields) =>
        match jGet fields "deals" with
        | none => (unparseableFallback, true)
        | some dealsVal =>
          match decodeDeals dealsVal with
          | none => (unparseableFallback, true)
          | some pairs =>
            let original_count := pairs.length
            let valid := pairs.filter (fun p => dealKeep p.2 retrieved)
            let fields1 := jSet fields "deals" (Json.arr (valid.map (fun p => p.1)))
            let fields2 :=
              if original_count > 0 ∧ valid.length = 0 then
                jSet fields1 "trend_summary"
                  (Json.str "No verified M&A activity found in sources.")
              else fields1
            (Json.obj fields2, true)
      | some _ => (unparseableFallback, true)

/-! ## Specification-side restatement of the composite score table -/

/-- Composite-score contribution table exactly as the specification words it:
one addend per table row, with mutually exclusive tier conditions. Stated from
the spec, for comparison with the elif chains of score_ticker. -/
def specContribution (stats : Stats) (news_items : List String) : ℚ :=
  (if stats.volume_shock > 3 then 0.3 else 0) +
  (if 1.5 < stats.volume_shock ∧ stats.volume_shock ≤ 3 then 0.1 else 0) +
  (if |stats.z_score| > 3 then 0.3 else 0) +
  (if 2 < |stats.z_score| ∧ |stats.z_score| ≤ 3 then 0.15 else 0) +
  (if stats.volatility > 0.5 then 0.1 else 0) +
  (if newsHasDealKeyword news_items then 0.3 else 0)

/-- Explanation list as the specification words it: one phrase per firing
table row, in evaluation order. Stated from the spec, for comparison with
score_ticker. -/
def specExplanation (fmt1 fmtPct : ℚ → String) (stats : Stats)
    (news_items : List String) : List String :=
  (if stats.volume_shock > 3 then
    ["Massive volume spike (" ++ fmt1 stats.volume_shock ++ "x avg)"] else []) ++
  (if 1.5 < stats.volume_shock ∧ stats.volume_shock ≤ 3 then
    ["Elevated volume (" ++ fmt1 stats.volume_shock ++ "x avg)"] else []) ++
  (if |stats.z_score| > 3 then
    ["Extreme price move (Z=" ++ fmt1 stats.z_score ++ ")"] else []) ++
  (if 2 < |stats.z_score| ∧ |stats.z_score| ≤ 3 then
    ["Significant price move (Z=" ++ fmt1 stats.z_score ++ ")"] else []) ++
  (if stats.volatility > 0.5 then
    ["High volatility (" ++ fmtPct stats.volatility ++ ")"] else []) ++
  (if newsHasDealKeyword news_items then ["News contains deal keywords"] else [])

/-- An elif tier chain equals the sum of the two mutually exclusive rows. -/
theorem tier_split (x hi lo a b : ℚ) :
    (if x > hi then a else if x > lo then b else 0) =
      (if x > hi then a else 0) + (if lo < x ∧ x ≤ hi then b else 0) := by
  by_cases h1 : x > hi
  · rw [if_pos h1, if_pos h1, if_neg (fun hc => absurd hc.2 (not_le.mpr h1)), add_zero]
  · rw [if_neg h1, if_neg h1]
    by_cases h2 : x > lo
    · rw [if_pos h2, if_pos ⟨h2, not_lt.mp h1⟩, zero_add]
    · rw [if_neg h2, if_neg (fun hc => h2 hc.1), add_zero]

/-- List analogue of tier_split for the explanation chains. -/
theorem tier_split_list (x hi lo : ℚ) (a b : List String) :
    (if x > hi then a else if x > lo then b else []) =
      (if x > hi then a else []) ++ (if lo < x ∧ x ≤ hi then b else []) := by
  by_cases h1 : x > hi
  · rw [if_pos h1, if_pos h1, if_neg (fun hc => absurd hc.2 (not_le.mpr h1)),
      List.append_nil]
  · rw [if_neg h1, if_neg h1]
    by_cases h2 : x > lo
    · rw [if_pos h2, if_pos ⟨h2, not_lt.mp h1⟩, List.nil_append]
    · rw [if_neg h2, if_neg (fun hc => h2 hc.1), List.append_nil]

/-! ## Claims about the signal scoring engine -/

/-- C2: for every entity id, every market-data input and every list of news
snippets, a returned total score lies between 0 and 1. -/
theorem score_ticker_bounds (sq : ℚ → ℚ) (fmt1 fmtPct : ℚ → String) (ticker : String)
    (md : MarketData) (news : List String) (s : SignalScore)
    (h : score_ticker sq fmt1 fmtPct ticker md news = some s) :
    0 ≤ s.total_score ∧ s.total_score ≤ 1 := by
  unfold score_ticker at h
  cases hc : compute_statistical_features sq md.close md.volume with
  | none => rw [hc] at h; exact Option.noConfusion h
  | some stats =>
    rw [hc] at h
    simp only [Option.some.injEq] at h
    subst h
    refine ⟨le_min (by norm_num) ?_, min_le_left _ _⟩
    dsimp only
    split_ifs <;> norm_num

/-- Constant formatter used by the concrete witnesses. -/
def fmtConst : ℚ → String := fun _ => ""

/-- Concrete evaluation of score_ticker on an empty market-data input. -/
theorem score_eval_aapl :
    score_ticker (fun q => q) fmtConst fmtConst "AAPL" ⟨[], []⟩ [] =
      some ⟨"AAPL", 0, ⟨0, 0, 0⟩, []⟩ := by
  unfold score_ticker compute_statistical_features
  norm_num [newsHasDealKeyword, min_def]

/-- Witness for C2 at a concrete input. -/
theorem score_ticker_bounds_witness :
    score_ticker (fun q => q) fmtConst fmtConst "AAPL" ⟨[], []⟩ [] =
        some ⟨"AAPL", 0, ⟨0, 0, 0⟩, []⟩ ∧
      0 ≤ (⟨"AAPL", 0, ⟨0, 0, 0⟩, []⟩ : SignalScore).total_score ∧
      (⟨"AAPL", 0, ⟨0, 0, 0⟩, []⟩ : SignalScore).total_score ≤ 1 :=
  ⟨score_eval_aapl, score_ticker_bounds (fun q => q) fmtConst fmtConst "AAPL" ⟨[], []⟩ [] _
    score_eval_aapl⟩

/-- C5: with fewer than 30 price observations all statistical components are
zero, while the textual keyword component still contributes its 0.3 and its
explanation when a snippet holds a deal keyword. -/
theorem short_history_guard (sq : ℚ → ℚ) (fmt1 fmtPct : ℚ → String) (ticker : String)
    (md : MarketData) (news : List String) (h : md.close.length < 30) :
    score_ticker sq fmt1 fmtPct ticker md news =
      some ⟨ticker, if newsHasDealKeyword news then 0.3 else 0, ⟨0, 0, 0⟩,
            if newsHasDealKeyword news then ["News contains deal keywords"] else []⟩ := by
  have hc : compute_statistical_features sq md.close md.volume = some ⟨0, 0, 0⟩ := by
    unfold compute_statistical_features
    rw [if_pos h]
  unfold score_ticker
  rw [hc]
  cases hk : newsHasDealKeyword news <;> norm_num

/-- Witness for C5 at a concrete input with a keyword-bearing snippet. -/
theorem short_history_guard_witness :
    ((⟨[100, 101], [5000]⟩ : MarketData).close.length < 30) ∧
      newsHasDealKeyword ["Merger talks heat up"] = true ∧
      score_ticker (fun q => q) fmtConst fmtConst "TSLA" ⟨[100, 101], [5000]⟩
          ["Merger talks heat up"] =
        some ⟨"TSLA",
          if newsHasDealKeyword ["Merger talks heat up"] then 0.3 else 0, ⟨0, 0, 0⟩,
          if newsHasDealKeyword ["Merger talks heat up"] then
            ["News contains deal keywords"] else []⟩ :=
  ⟨by norm_num, by decide,
    short_history_guard (fun q => q) fmtConst fmtConst "TSLA" ⟨[100, 101], [5000]⟩
      ["Merger talks heat up"] (by norm_num)⟩

/-- C6: the returned composite score is the capped sum of exactly the table
rows whose mutually exclusive condition holds, and the explanation list is
the corresponding phrases in evaluation order. -/
theorem composite_score_structure (sq : ℚ → ℚ) (fmt1 fmtPct : ℚ → String)
    (ticker : String) (md : MarketData) (news : List String) (s : SignalScore)
    (h : score_ticker sq fmt1 fmtPct ticker md news = some s) :
    s.total_score = min 1 (specContribution s.components news) ∧
      s.explanation = specExplanation fmt1 fmtPct s.components news := by
  unfold score_ticker at h
  cases hc : compute_statistical_features sq md.close md.volume with
  | none => rw [hc] at h; exact Option.noConfusion h
  | some stats =>
    rw [hc] at h
    simp only [Option.some.injEq] at h
    subst h
    constructor
    · dsimp only [specContribution]
      refine congrArg (min 1) ?_
      rw [tier_split stats.volume_shock 3 1.5 0.3 0.1,
        tier_split |stats.z_score| 3 2 0.3 0.15]
      ring
    · dsimp only [specExplanation]
      rw [tier_split_list stats.volume_shock 3 1.5, tier_split_list |stats.z_score| 3 2]
      simp only [List.append_assoc]

/-- Concrete evaluation of score_ticker on a keyword-bearing snippet. -/
theorem score_eval_msft :
    score_ticker (fun q => q) fmtConst fmtConst "MSFT" ⟨[], []⟩ ["acquisition rumor"] =
      some ⟨"MSFT", 0.3, ⟨0, 0, 0⟩, ["News contains deal keywords"]⟩ := by
  unfold score_ticker compute_statistical_features
  norm_num [show newsHasDealKeyword ["acquisition rumor"] = true from by decide, min_def]

/-- Witness for C6 at a concrete input. -/
theorem composite_score_structure_witness :
    score_ticker (fun q => q) fmtConst fmtConst "MSFT" ⟨[], []⟩ ["acquisition rumor"] =
        some ⟨"MSFT", 0.3, ⟨0, 0, 0⟩, ["News contains deal keywords"]⟩ ∧
      (⟨"MSFT", 0.3, ⟨0, 0, 0⟩, ["News contains deal keywords"]⟩ :
          SignalScore).total_score =
        min 1 (specContribution
          (⟨"MSFT", 0.3, ⟨0, 0, 0⟩, ["News contains deal keywords"]⟩ :
            SignalScore).components ["acquisition rumor"]) ∧
      (⟨"MSFT", 0.3, ⟨0, 0, 0⟩, ["News contains deal keywords"]⟩ :
          SignalScore).explanation =
        specExplanation fmtConst fmtConst
          (⟨"MSFT", 0.3, ⟨0, 0, 0⟩, ["News contains deal keywords"]⟩ :
            SignalScore).components ["acquisition rumor"] :=
  ⟨score_eval_msft, composite_score_structure (fun q => q) fmtConst fmtConst "MSFT" ⟨[], []⟩
    ["acquisition rumor"] _ score_eval_msft⟩

/-! ## Claims about the evidence validator -/

/-- Evidence carrying a generic hallucination phrase fails the grounding
check, whatever the retrieved set is. -/
theorem evidence_false_of_generic (evidence : String) (docs : List Doc)
    (h : generic_phrases.any (fun p => containsSub p (lowerS evidence)) = true) :
    _evidence_exists_in_docs evidence docs = false := by
  unfold _evidence_exists_in_docs
  split
  · rfl
  · simp [h]

/-- The grounding check always fails against an empty retrieved set. -/
theorem evidence_not_in_empty (evidence : String) :
    _evidence_exists_in_docs evidence [] = false := by
  unfold _evidence_exists_in_docs
  split
  · rfl
  · simp only [List.any_nil, ite_self]

/-- C3: a candidate that survives validation never carries one of the fixed
hallucination markers in its evidence, and the specific generic rumor
evidence is rejected for every retrieved set and all acquirer and target
values. -/
theorem validator_rejects_generic_phrases :
    (∀ (deals : List Deal) (docs : List Doc) (d : Deal),
        d ∈ _validate_deals deals docs →
        ∀ p ∈ rule3_phrases, containsSub p (lowerS d.evidence) = false) ∧
    (∀ (docs : List Doc) (a t : Option String),
        _validate_deals
          [⟨a, t, "Rumors of potential collaborations across various industries"⟩]
          docs = []) := by
  constructor
  · intro deals docs d hd p hp
    unfold _validate_deals at hd
    have hk : dealKeep d docs = true := (List.mem_filter.mp hd).2
    unfold dealKeep at hk
    have h3 : (!(rule3_phrases.any
        (fun phrase => containsSub phrase (lowerS d.evidence)))) = true :=
      ((Bool.and_eq_true _ _).mp hk).2
    rw [Bool.not_eq_true'] at h3
    have := List.any_eq_false.mp h3 p hp
    simpa using this
  · intro docs a t
    have hev : _evidence_exists_in_docs
        "Rumors of potential collaborations across various industries" docs = false :=
      evidence_false_of_generic _ docs (by decide)
    unfold _validate_deals
    simp [dealKeep, hev]

/-- Concrete surviving candidate used by the C3 witness. -/
def c3deal : Deal := ⟨some "BigCorp", none, "BigCorp to acquire SmallCo for cash"⟩

/-- Concrete retrieved record grounding c3deal. -/
def c3doc : Doc := ⟨some "BigCorp to acquire SmallCo for cash, sources say", ⟨none, none⟩⟩

/-- Witness for C3: a concrete candidate passes validation and its evidence
is marker-free; the specific generic candidate is filtered out. -/
theorem validator_rejects_generic_phrases_witness :
    c3deal ∈ _validate_deals [c3deal] [c3doc] ∧
      containsSub "rumors of potential" (lowerS c3deal.evidence) = false ∧
      _validate_deals
        [⟨some "BigCorp", some "SmallCo",
          "Rumors of potential collaborations across various industries"⟩] [c3doc] = [] :=
  ⟨by decide,
    validator_rejects_generic_phrases.1 [c3deal] [c3doc] c3deal (by decide)
      "rumors of potential" (by decide),
    validator_rejects_generic_phrases.2 [c3doc] (some "BigCorp") (some "SmallCo")⟩

/-- C10: validating any candidate list against an empty retrieved set returns
the empty list, since the evidence-grounding check cannot succeed without
retrieved records. -/
theorem validate_deals_empty_docs (deals : List Deal) :
    _validate_deals deals [] = [] := by
  unfold _validate_deals
  rw [List.filter_eq_nil_iff]
  intro d _
  simp [dealKeep, evidence_not_in_empty]

/-! ## Claims about the retrieval deduplication engine -/

/-- Serialization preserves the deduplication key. -/
theorem docKey_serializeLC (d : LCDoc) : docKey (serializeLC d) = lcKey d := rfl

/-- The fused serialize-and-dedup loop of retrieve_step factors through the
dedup loop on serialized records. -/
theorem dedupGo_eq_docsGo (l : List LCDoc) (seen : List (String × Option String)) :
    dedupGo seen l = dedupDocsGo seen (l.map serializeLC) := by
  induction l generalizing seen with
  | nil => rfl
  | cons d ds ih =>
    simp only [List.map_cons, dedupGo, dedupDocsGo, docKey_serializeLC]
    by_cases h : lcKey d ∈ seen
    · rw [if_pos h, if_pos h, ih]
    · rw [if_neg h, if_neg h, ih]

/-- Every record emitted by the dedup loop has a key outside the seen set. -/
theorem dedupDocsGo_not_seen (l : List Doc) (seen : List (String × Option String))
    (d : Doc) (hd : d ∈ dedupDocsGo seen l) : docKey d ∉ seen := by
  induction l generalizing seen with
  | nil => cases hd
  | cons a as ih =>
    by_cases h : docKey a ∈ seen
    · rw [dedupDocsGo, if_pos h] at hd
      exact ih seen hd
    · rw [dedupDocsGo, if_neg h] at hd
      rcases List.mem_cons.mp hd with he | hm
      · rw [he]; exact h
      · exact fun hk => ih _ hm (List.mem_cons_of_mem _ hk)

/-- The keys of the dedup-loop output are pairwise distinct. -/
theorem dedupDocsGo_nodup (l : List Doc) (seen : List (String × Option String)) :
    ((dedupDocsGo seen l).map docKey).Nodup := by
  induction l generalizing seen with
  | nil => simp [dedupDocsGo]
  | cons a as ih =>
    by_cases h : docKey a ∈ seen
    · rw [dedupDocsGo, if_pos h]
      exact ih seen
    · rw [dedupDocsGo, if_neg h]
      simp only [List.map_cons, List.nodup_cons]
      refine ⟨fun hmem => ?_, ih _⟩
      obtain ⟨d, hd, hkey⟩ := List.mem_map.mp hmem
      exact dedupDocsGo_not_seen as _ d hd (hkey ▸ List.mem_cons_self _ _)

/-- On a list whose keys avoid the seen set and are pairwise distinct, the
dedup loop is the identity. -/
theorem dedupDocsGo_id (l : List Doc) (seen : List (String × Option String))
    (hseen : ∀ d ∈ l, docKey d ∉ seen) (hnd : (l.map docKey).Nodup) :
    dedupDocsGo seen l = l := by
  induction l generalizing seen with
  | nil => rfl
  | cons a as ih =>
    have ha : docKey a ∉ seen := hseen a (List.mem_cons_self _ _)
    simp only [List.map_cons, List.nodup_cons] at hnd
    rw [dedupDocsGo, if_neg ha]
    congr 1
    refine ih _ (fun d hd => ?_) hnd.2
    intro hk
    rcases List.mem_cons.mp hk with he | hm
    · exact hnd.1 (he ▸ List.mem_map_of_mem docKey hd)
    · exact hseen d (List.mem_cons_of_mem _ hd) hm

/-- The dedup loop emits a subsequence of the serialized input, so insertion
order is preserved. -/
theorem dedupGo_sublist (l : List LCDoc) (seen : List (String × Option String)) :
    (dedupGo seen l).Sublist (l.map serializeLC) := by
  induction l generalizing seen with
  | nil => simp [dedupGo]
  | cons a as ih =>
    by_cases h : lcKey a ∈ seen
    · rw [dedupGo, if_pos h, List.map_cons]
      exact (ih seen).cons _
    · rw [dedupGo, if_neg h, List.map_cons]
      exact (ih _).cons₂ _

/-- A key inside the seen set never appears in the dedup-loop output. -/
theorem dedupGo_find?_seen (l : List LCDoc) (seen : List (String × Option String))
    (key : String × Option String) (hk : key ∈ seen) :
    (dedupGo seen l).find? (fun d => docKey d == key) = none := by
  induction l generalizing seen with
  | nil => rfl
  | cons a as ih =>
    by_cases h : lcKey a ∈ seen
    · rw [dedupGo, if_pos h]
      exact ih seen hk
    · rw [dedupGo, if_neg h]
      rw [List.find?_cons_of_neg, ih _ (List.mem_cons_of_mem _ hk)]
      simp only [docKey_serializeLC, beq_iff_eq]
      intro he
      exact h (he ▸ hk)

/-- For a key outside the seen set, the first emitted record with that key is
the serialization of the first input hit with that key. -/
theorem dedupGo_find? (l : List LCDoc) (seen : List (String × Option String))
    (key : String × Option String) (hk : key ∉ seen) :
    (dedupGo seen l).find? (fun d => docKey d == key) =
      (l.find? (fun r => lcKey r == key)).map serializeLC := by
  induction l generalizing seen with
  | nil => rfl
  | cons a as ih =>
    by_cases h : lcKey a ∈ seen
    · have hne : ¬((lcKey a == key) = true) := by
        simp only [beq_iff_eq]
        intro he
        exact hk (he ▸ h)
      have l2 : List.find? (fun r => lcKey r == key) (a :: as) =
          List.find? (fun r => lcKey r == key) as :=
        List.find?_cons_of_neg _ hne
      rw [dedupGo, if_pos h, l2]
      exact ih seen hk
    · by_cases he : lcKey a = key
      · have l1 : List.find? (fun d => docKey d == key)
            (serializeLC a :: dedupGo (lcKey a :: seen) as) = some (serializeLC a) :=
          List.find?_cons_of_pos _ (by simp [docKey_serializeLC, he])
        have l2 : List.find? (fun r => lcKey r == key) (a :: as) = some a :=
          List.find?_cons_of_pos _ (by simp [he])
        rw [dedupGo, if_neg h, l1, l2]
        rfl
      · have l1 : List.find? (fun d => docKey d == key)
            (serializeLC a :: dedupGo (lcKey a :: seen) as) =
            List.find? (fun d => docKey d == key) (dedupGo (lcKey a :: seen) as) :=
          List.find?_cons_of_neg _ (by simp [docKey_serializeLC, he])
        have l2 : List.find? (fun r => lcKey r == key) (a :: as) =
            List.find? (fun r => lcKey r == key) as :=
          List.find?_cons_of_neg _ (by simp [he])
        rw [dedupGo, if_neg h, l1, l2]
        refine ih _ (fun hm => ?_)
        rcases List.mem_cons.mp hm with h1 | h2
        · exact he h1.symm
        · exact hk h2

/-- C8: the embedding-mode retrieval output is the accumulated hits,
deduplicated by the pair of normalized text and link with the first
occurrence of each key kept and insertion order preserved, then truncated to
the configured retrieval width. -/
theorem retrieve_dedup_characterization (search : String → Nat → List LCDoc)
    (tickers : List String) (top_k : Nat) (hits : List LCDoc)
    (hhits : hits = (_build_queries tickers).flatMap (fun q => search q top_k)) :
    retrieve_step_faiss search tickers top_k = (dedupSerialize hits).take top_k ∧
      ((dedupSerialize hits).map docKey).Nodup ∧
      (dedupSerialize hits).Sublist (hits.map serializeLC) ∧
      ∀ key, (dedupSerialize hits).find? (fun d => docKey d == key) =
        (hits.find? (fun r => lcKey r == key)).map serializeLC := by
  subst hhits
  refine ⟨rfl, ?_, dedupGo_sublist _ _, fun key => dedupGo_find? _ _ key (by simp)⟩
  rw [dedupSerialize, dedupGo_eq_docsGo]
  exact dedupDocsGo_nodup _ _

/-- Concrete raw hits used by the C8 witness: the first and third share a key. -/
def c8hit1 : LCDoc := ⟨some "alpha to buy beta", some ⟨some "yahoo_news", some "l1"⟩⟩

/-- Second concrete raw hit for the C8 witness. -/
def c8hit2 : LCDoc := ⟨some "gamma merger talk", some ⟨some "sec", some "l2"⟩⟩

/-- Concrete search collaborator returning a duplicated hit list. -/
def c8search : String → Nat → List LCDoc := fun _ _ => [c8hit1, c8hit2, c8hit1]

/-- Witness for C8 at a concrete duplicated hit sequence. -/
theorem retrieve_dedup_characterization_witness :
    retrieve_step_faiss c8search ["ACME"] 2 =
        (dedupSerialize [c8hit1, c8hit2, c8hit1]).take 2 ∧
      ((dedupSerialize [c8hit1, c8hit2, c8hit1]).map docKey).Nodup ∧
      (dedupSerialize [c8hit1, c8hit2, c8hit1]).Sublist
        ([c8hit1, c8hit2, c8hit1].map serializeLC) ∧
      ∀ key, (dedupSerialize [c8hit1, c8hit2, c8hit1]).find? (fun d => docKey d == key) =
        ([c8hit1, c8hit2, c8hit1].find? (fun r => lcKey r == key)).map serializeLC :=
  retrieve_dedup_characterization c8search ["ACME"] 2 [c8hit1, c8hit2, c8hit1] (by decide)

/-- C9: the dedup/merge step is idempotent: applied to its own output it
returns the same records in the same order. -/
theorem dedup_step_idempotent (top_k : Nat) (ds : List Doc) :
    dedupStep top_k (dedupStep top_k ds) = dedupStep top_k ds := by
  unfold dedupStep
  have h1 : (((dedupDocsGo [] ds).take top_k).map docKey).Nodup := by
    have := dedupDocsGo_nodup ds []
    exact (List.map_take docKey (dedupDocsGo [] ds) top_k ▸
      (this.sublist (List.take_sublist _ _) : ((dedupDocsGo [] ds).map docKey).take
        top_k |>.Nodup))
  rw [dedupDocsGo_id _ [] (by simp) h1, List.take_take, Nat.min_self]

/-! ## Claims about the extraction stage -/

/-- Every rendered context line starts with a dash. -/
theorem fmtLine_head (d : Doc) : (fmtLine d).data.head? = some '-' := by
  unfold fmtLine
  simp [String.data_append]

/-- The rendered context of a non-empty retrieved set starts with a dash. -/
theorem format_ctx_head (d : Doc) (ds : List Doc) :
    (_format_ctx (d :: ds)).data.head? = some '-' := by
  have hf := fmtLine_head d
  unfold _format_ctx
  rw [show (8 : Nat) = 7 + 1 from rfl, List.take_succ_cons, List.map_cons]
  rw [if_neg (by simp)]
  obtain ⟨t, ht⟩ : ∃ t, (fmtLine d).data = '-' :: t := by
    cases hfd : (fmtLine d).data with
    | nil => rw [hfd] at hf; cases hf
    | cons c cs =>
      rw [hfd] at hf
      simp only [List.head?_cons, Option.some.injEq] at hf
      exact ⟨cs, by rw [hf]⟩
  cases hrest : (List.take 7 ds).map fmtLine with
  | nil => rw [joinNL]; exact hf
  | cons x xs =>
    rw [joinNL]
    · simp [String.data_append, ht, List.cons_append]
    · exact List.cons_ne_nil x xs

/-- With a non-empty retrieved set, the empty-retrieval guard of
analyze_with_llm is false. -/
theorem format_ctx_cond_false (retrieved : List Doc) (h : retrieved ≠ []) :
    ¬(_format_ctx retrieved = "(no retrieved docs)" ∨ retrieved = []) := by
  rintro (hc | hc)
  · obtain ⟨d, ds, rfl⟩ := List.exists_cons_of_ne_nil h
    have h1 := format_ctx_head d ds
    rw [hc] at h1
    exact absurd h1 (by decide)
  · exact h hc

/-- Looking up a key in the in-place map replacement finds the new value. -/
theorem jGet_map_replace (fields : List (String × Json)) (key : String) (v : Json) :
    (fields.find? (fun f => f.1 == key)).isSome = true →
    jGet (fields.map (fun f => if f.1 == key then (f.1, v) else f)) key = some v := by
  induction fields with
  | nil => intro h; simp [List.find?] at h
  | cons f fs ih =>
    intro h
    by_cases hf : (f.1 == key) = true
    · unfold jGet
      rw [List.map_cons, if_pos hf]
      have l1 : List.find? (fun g => g.1 == key)
          ((f.1, v) :: fs.map (fun g => if g.1 == key then (g.1, v) else g)) =
          some (f.1, v) :=
        List.find?_cons_of_pos _ hf
      rw [l1]
      rfl
    · unfold jGet at ih ⊢
      rw [List.map_cons, if_neg hf]
      have l1 : List.find? (fun g => g.1 == key)
          (f :: fs.map (fun g => if g.1 == key then (g.1, v) else g)) =
          List.find? (fun g => g.1 == key)
            (fs.map (fun g => if g.1 == key then (g.1, v) else g)) :=
        List.find?_cons_of_neg _ hf
      rw [l1]
      apply ih
      have l2 : List.find? (fun g => g.1 == key) (f :: fs) =
          List.find? (fun g => g.1 == key) fs :=
        List.find?_cons_of_neg _ hf
      rw [l2] at h
      exact h

/-- Looking up a key appended to a field list without it finds the new value. -/
theorem jGet_append_absent (fields : List (String × Json)) (key : String) (v : Json)
    (h : fields.find? (fun f => f.1 == key) = none) :
    jGet (fields ++ [(key, v)]) key = some v := by
  unfold jGet
  rw [List.find?_append, h]
  simp [List.find?]

/-- Dict assignment followed by lookup of the same key yields the new value. -/
theorem jGet_jSet (fields : List (String × Json)) (key : String) (v : Json) :
    jGet (jSet fields key v) key = some v := by
  unfold jSet
  by_cases h : (fields.find? (fun f => f.1 == key)).isSome = true
  · rw [if_pos h]
    exact jGet_map_replace fields key v h
  · rw [if_neg h]
    exact jGet_append_absent fields key v (Option.not_isSome_iff_eq_none.mp h)

/-- C1 (amended): with a collaborator configured and an empty retrieved set,
extraction returns exactly the fixed no-documents-retrieved dict, and the
collaborator is never invoked (instrumentation bit false). -/
theorem empty_retrieval_short_circuit (loads : String → Option Json)
    (generate : String → Option String) (query : String) :
    analyze_with_llm loads (some generate) query [] = (noDocsResult, false) := by
  unfold analyze_with_llm
  simp

/-- C1 counterexample: on an empty retrieved set the returned trend summary
is the no-documents-retrieved message, not the literal text
no evidence available that the claim states, so the returned dict differs
from the claimed one. -/
theorem empty_retrieval_exact_dict_cex :
    (analyze_with_llm (fun _ => none) (some (fun _ => some "")) "q" []).1 ≠
      Json.obj [("deals", Json.arr []),
        ("trend_summary", Json.str "no evidence available")] := by
  intro h
  have h1 : jGetJ (analyze_with_llm (fun _ => none)
      (some (fun _ => some "")) "q" []).1 "trend_summary" =
      some (Json.str "No documents retrieved. Unable to detect M&A activity.") := rfl
  rw [h] at h1
  have h2 : jGetJ (Json.obj [("deals", Json.arr []),
      ("trend_summary", Json.str "no evidence available")]) "trend_summary" =
      some (Json.str "no evidence available") := rfl
  rw [h2] at h1
  simp only [Option.some.injEq, Json.str.injEq] at h1
  exact absurd h1 (by decide)

/-- C7: the extraction parser applies the JSON loader to the stripped raw
response; a load failure, or a loaded value that is not an object carrying a
deals key, yields the fixed unparseable-output fallback, and any non-fallback
result implies the loaded value was an object with a deals key. The final
conjunct shows the stripping removing code-fence markers and a leading
language tag. -/
theorem parse_fallback_behavior (loads : String → Option Json)
    (generate : String → Option String) (query : String) (retrieved : List Doc)
    (hne : retrieved ≠ []) :
    (loads (stripResponse ((generate (buildPrompt query
        (_format_ctx retrieved))).getD "")) = none →
      analyze_with_llm loads (some generate) query retrieved =
        (unparseableFallback, true)) ∧
    (∀ j, loads (stripResponse ((generate (buildPrompt query
        (_format_ctx retrieved))).getD "")) = some j → isObjWithDeals j = false →
      analyze_with_llm loads (some generate) query retrieved =
        (unparseableFallback, true)) ∧
    ((analyze_with_llm loads (some generate) query retrieved).1 ≠ unparseableFallback →
      ∃ j, loads (stripResponse ((generate (buildPrompt query
        (_format_ctx retrieved))).getD "")) = some j ∧ isObjWithDeals j = true) ∧
    stripResponse "```json\n\x7b\"deals\": []\x7d\n```" = "\x7b\"deals\": []\x7d\n" := by
  have hcond := format_ctx_cond_false retrieved hne
  refine ⟨?_, ?_, ?_, by decide⟩
  · intro hl
    unfold analyze_with_llm
    simp only []
    rw [if_neg hcond]
    simp only [hl]
  · intro j hl hobj
    unfold analyze_with_llm
    simp only []
    rw [if_neg hcond]
    cases j with
    | obj fields =>
      simp only [isObjWithDeals] at hobj
      have hnone : jGet fields "deals" = none :=
        Option.not_isSome_iff_eq_none.mp (by simp [hobj])
      simp only [hl, hnone]
    | null => simp only [hl]
    | bool b => simp only [hl]
    | num q => simp only [hl]
    | str s => simp only [hl]
    | arr elems => simp only [hl]
  · intro hout
    cases hl : loads (stripResponse ((generate (buildPrompt query
        (_format_ctx retrieved))).getD "")) with
    | none =>
      exfalso
      apply hout
      unfold analyze_with_llm
      simp only []
      rw [if_neg hcond]
      simp only [hl]
    | some j =>
      refine ⟨j, rfl, ?_⟩
      by_contra hobj
      rw [Bool.not_eq_true] at hobj
      apply hout
      unfold analyze_with_llm
      simp only []
      rw [if_neg hcond]
      cases j with
      | obj fields =>
        simp only [isObjWithDeals] at hobj
        have hnone : jGet fields "deals" = none :=
          Option.not_isSome_iff_eq_none.mp (by simp [hobj])
        simp only [hl, hnone]
      | null => simp only [hl]
      | bool b => simp only [hl]
      | num q => simp only [hl]
      | str s => simp only [hl]
      | arr elems => simp only [hl]

/-- Concrete retrieved record for the C7 witness. -/
def c7doc : Doc := ⟨some "alpha beta gamma news", ⟨none, none⟩⟩

/-- Witness for C7: a loader failure on a non-empty retrieved set produces
the unparseable fallback. -/
theorem parse_fallback_behavior_witness :
    ([c7doc] ≠ ([] : List Doc)) ∧
      analyze_with_llm (fun _ => none) (some (fun _ => some "x")) "q" [c7doc] =
        (unparseableFallback, true) :=
  ⟨List.cons_ne_nil _ _,
    (parse_fallback_behavior (fun _ => none) (fun _ => some "x") "q" [c7doc]
      (List.cons_ne_nil _ _)).1 rfl⟩

/-- C4: when the loaded object carried a non-empty candidate list and
validation filtered every candidate out, the returned dict carries the fixed
no-verified-activity trend summary instead of the stale loaded one. -/
theorem filtered_summary_overwritten (loads : String → Option Json)
    (generate : String → Option String) (query : String) (retrieved : List Doc)
    (fields : List (String × Json)) (dealsVal : Json) (pairs : List (Json × Deal))
    (hne : retrieved ≠ [])
    (hload : loads (stripResponse ((generate (buildPrompt query
        (_format_ctx retrieved))).getD "")) = some (Json.obj fields))
    (hdv : jGet fields "deals" = some dealsVal)
    (hdec : decodeDeals dealsVal = some pairs)
    (hnonempty : pairs ≠ [])
    (hfiltered : pairs.filter (fun p => dealKeep p.2 retrieved) = []) :
    jGetJ (analyze_with_llm loads (some generate) query retrieved).1 "trend_summary" =
      some (Json.str "No verified M&A activity found in sources.") := by
  unfold analyze_with_llm
  simp only []
  rw [if_neg (format_ctx_cond_false retrieved hne)]
  simp only [hload, hdv, hdec, hfiltered]
  rw [if_pos ⟨List.length_pos.mpr hnonempty, rfl⟩]
  unfold jGetJ
  exact jGet_jSet _ _ _

/-- Concrete retrieved record for the C4 witness. -/
def c4doc : Doc := ⟨some "Some market news content here", ⟨none, none⟩⟩

/-- Concrete hallucinated deal dict for the C4 witness. -/
def c4dealJson : Json :=
  Json.obj [("acquirer", Json.str "A Corp"), ("target", Json.null),
    ("evidence", Json.str "rumors of potential deals everywhere")]

/-- Concrete loaded field list for the C4 witness. -/
def c4fields : List (String × Json) :=
  [("deals", Json.arr [c4dealJson]), ("trend_summary", Json.str "stale summary")]

/-- Concrete loader for the C4 witness. -/
def c4loads : String → Option Json := fun _ => some (Json.obj c4fields)

/-- Concrete decoded pair list for the C4 witness. -/
def c4pairs : List (Json × Deal) :=
  [(c4dealJson, ⟨some "A Corp", none, "rumors of potential deals everywhere"⟩)]

/-- Witness for C4: a single hallucinated candidate is filtered out and the
trend summary is overwritten. -/
theorem filtered_summary_overwritten_witness :
    c4pairs ≠ [] ∧
      c4pairs.filter (fun p => dealKeep p.2 [c4doc]) = [] ∧
      jGetJ (analyze_with_llm c4loads (some (fun _ => some "raw")) "q" [c4doc]).1
          "trend_summary" =
        some (Json.str "No verified M&A activity found in sources.") :=
  ⟨List.cons_ne_nil _ _, rfl,
    filtered_summary_overwritten c4loads (fun _ => some "raw") "q" [c4doc] c4fields
      (Json.arr [c4dealJson]) c4pairs (List.cons_ne_nil _ _) rfl rfl rfl
      (List.cons_ne_nil _ _) rfl⟩

end DealAgent
